import Mathlib

/-!
# Lobby Settlement Engine: a shallow embedding

This file embeds the lobby settlement engine of the `bets` repository in
Lean 4 and proves (or refutes) the specification claims about it.

The embedding follows the JavaScript sources:
* `src/server/lobby-manager.js` — the `LobbyManager` class (balance ledger
  and lobby state machine);
* the finalization job (`FinalizationJob.finalizeLobby`) in its two
  settlement-formula variants;
* the deposit event listener (`EventListener`);
* the `BetLobby` Solidity contract's arithmetic checks in
  `distributeRewards` (the "external validator").

JavaScript `Map` objects are modelled as association lists with
set-or-append update (`aset`), which reproduces `Map.get`/`Map.set`/
`Map.delete` semantics including key uniqueness and insertion order.
Balances are integers in the smallest currency unit (JS numbers in the
source always hold integral values here), modelled as `Nat`, with `Int`
used where the source can produce negative values by subtraction.
Wallet addresses are taken to be already-canonical lower-case strings, so
the source's `toLowerCase()` calls are the identity on them.
-/

namespace Bets

/-! ## Association-list model of JavaScript `Map` -/

/-- `Map.get`: the value at `key`, reading the first matching entry. -/
def aget {k v : Type} [DecidableEq k] (m : List (k × v)) (key : k) : Option v :=
  match m with
  | [] => none
  | e :: t => if e.1 = key then some e.2 else aget t key

/-- `Map.set`: replace the first entry with key `key` in place, or append
a new entry at the end, exactly as a JS `Map` keeps insertion order. -/
def aset {k v : Type} [DecidableEq k] (m : List (k × v)) (key : k) (val : v) :
    List (k × v) :=
  match m with
  | [] => [(key, val)]
  | e :: t => if e.1 = key then (key, val) :: t else e :: aset t key val

/-- `Map.delete`: remove the first entry with key `key`. -/
def adel {k v : Type} [DecidableEq k] (m : List (k × v)) (key : k) : List (k × v) :=
  match m with
  | [] => []
  | e :: t => if e.1 = key then t else e :: adel t key

/-- Keys of an association list. -/
def akeys {k v : Type} (m : List (k × v)) : List k := m.map (·.1)

/-- `const e = m.get(key); if (e) { mutate e }`: apply `f` to the entry at
`key` when present, else leave the map unchanged. -/
def updateEntry {k v : Type} [DecidableEq k] (m : List (k × v)) (key : k) (f : v → v) :
    List (k × v) :=
  match aget m key with
  | some b => aset m key (f b)
  | none => m

/-- `if (!m.has(key)) m.set(key, val)`: insert only when absent. -/
def insertIfAbsent {k v : Type} [DecidableEq k] (m : List (k × v)) (key : k) (val : v) :
    List (k × v) :=
  match aget m key with
  | some _ => m
  | none => aset m key val


/-! ## Data model (`src/server/lobby-manager.js`, `config.js`) -/

/-- Wallet address (canonical lower-case string). -/
abbrev Addr := String

/-- Ephemeral connection identifier (socket id). -/
abbrev SocketId := String

/-- Lobby identity: monotonic integer derived from a time bucket. -/
abbrev LobbyId := Nat

/-- `config.blockchain.depositAmount`: 1 USDC in 6-decimals units. -/
def depositAmount : Nat := 1000000

/-- `config.blockchain.feeBps`: 5% fee in basis points. -/
def feeBps : Nat := 500

/-- `config.blockchain.lobbyDuration` in seconds. -/
def lobbyDuration : Nat := 300

/-- `config.blockchain.cashOutGraceSeconds`. -/
def cashOutGraceSeconds : Nat := 45

/-- Participant / balance-entry status. -/
inductive PStatus where
  | active
  | frozen
  | temporarily_disconnected
  | dead
deriving DecidableEq

/-- Lobby lifecycle state (`waiting | active | finalizable | finalized`). -/
inductive LState where
  | waiting
  | active
  | finalizable
  | finalized
deriving DecidableEq

/-- One row of `lobby.players` (keyed by socket id in the map). -/
structure PlayerState where
  address : Addr
  balance : Nat
  pstatus : PStatus
deriving DecidableEq

/-- One row of `lobby.balances` (keyed by address in the map). -/
structure BalanceEntry where
  amount : Nat
  bstatus : PStatus
deriving DecidableEq

/-- One lobby's mutable state, as created by `LobbyManager.getLobby`. -/
structure Lobby where
  lstate : LState
  startTime : Option Nat
  endTime : Option Nat
  players : List (SocketId × PlayerState)
  balances : List (Addr × BalanceEntry)
deriving DecidableEq

/-- The default lobby inserted by `getLobby` on first reference. -/
def Lobby.empty : Lobby :=
  { lstate := LState.waiting, startTime := none, endTime := none,
    players := [], balances := [] }

/-- The `LobbyManager`'s mutable maps. -/
structure Manager where
  lobbies : List (LobbyId × Lobby)
  playerLobbies : List (SocketId × LobbyId)
  addressLobbies : List (Addr × LobbyId)
deriving DecidableEq

/-- A freshly constructed `LobbyManager`. -/
def Manager.init : Manager := { lobbies := [], playerLobbies := [], addressLobbies := [] }

/-- The lobby object `getLobby` returns for `id` (the stored one, or the
default that `getLobby` would insert). -/
def getLobbyState (m : Manager) (id : LobbyId) : Lobby :=
  (aget m.lobbies id).getD Lobby.empty

/-- `getLobby` as a state change: inserts the default lobby when absent. -/
def ensureLobby (m : Manager) (id : LobbyId) : Manager :=
  { m with lobbies := aset m.lobbies id (getLobbyState m id) }

/-! ## Balance-ledger and state-machine operations -/

/-- `LobbyManager.activateLobby`: `waiting → active` on first deposit,
setting `startTime`/`endTime`; a no-op on any other state. -/
def activateLobby (m : Manager) (id : LobbyId) (now : Nat) : Manager :=
  let lobby := getLobbyState m id
  let lobby' :=
    if lobby.lstate = LState.waiting then
      { lobby with lstate := LState.active, startTime := some now,
                   endTime := some (now + lobbyDuration * 1000) }
    else lobby
  { m with lobbies := aset m.lobbies id lobby' }

/-- `LobbyManager.addPlayer`: create the player row (always, keyed by
socket id, with a fresh `depositAmount` balance) and the balance row
(only if the address is unseen in this lobby), and record the
socket/address → lobby mappings. -/
def addPlayer (m : Manager) (id : LobbyId) (sid : SocketId) (addr : Addr) : Manager :=
  let lobby := getLobbyState m id
  let players' := aset lobby.players sid
    ({ address := addr, balance := depositAmount, pstatus := PStatus.active })
  let balances' := insertIfAbsent lobby.balances addr
    ({ amount := depositAmount, bstatus := PStatus.active })
  { lobbies := aset m.lobbies id ({ lobby with players := players', balances := balances' }),
    playerLobbies := aset m.playerLobbies sid id,
    addressLobbies := aset m.addressLobbies addr id }

/-- `LobbyManager.markTemporarilyDisconnected`: only an `active` player
row transitions, and only the player row — the balance row is untouched
(the source never writes `temporarily_disconnected` into `lobby.balances`). -/
def markTemporarilyDisconnected (m : Manager) (sid : SocketId) : Manager :=
  match aget m.playerLobbies sid with
  | none => m
  | some id =>
    let lobby := getLobbyState m id
    let lobby' :=
      match aget lobby.players sid with
      | some p =>
        if p.pstatus = PStatus.active then
          { lobby with players :=
              (aset lobby.players sid ({ p with pstatus := PStatus.temporarily_disconnected })) }
        else lobby
      | none => lobby
    { m with lobbies := aset m.lobbies id lobby' }

/-- The core of `LobbyManager.removePlayer` once the target lobby and
socket are resolved: zero the balance row and mark it dead only when the
player's status is `active` or `temporarily_disconnected` (a `frozen`
row is deliberately preserved), then delete the player row and the
socket → lobby mapping. -/
def removeCore (m : Manager) (id : LobbyId) (sid : SocketId) : Manager :=
  let lobby := getLobbyState m id
  let lobby' :=
    match aget lobby.players sid with
    | none => lobby
    | some p =>
      let lobby2 :=
        if p.pstatus = PStatus.active ∨ p.pstatus = PStatus.temporarily_disconnected then
          { lobby with balances :=
              (updateEntry lobby.balances p.address
                (fun _ => { amount := 0, bstatus := PStatus.dead })) }
        else lobby
      { lobby2 with players := adel lobby2.players sid }
  { m with lobbies := aset m.lobbies id lobby',
           playerLobbies := adel m.playerLobbies sid }

/-- `removePlayer(socketId, ...)`: the socket-id entry path, which looks
the lobby up in `playerLobbies` (a passed lobby id is ignored). -/
def removePlayerBySocket (m : Manager) (sid : SocketId) : Manager :=
  match aget m.playerLobbies sid with
  | none => m
  | some id => removeCore m id sid

/-- The `removePlayer(null, address, ...)` path: resolve the lobby from
`addressLobbies` and scan `lobby.players` for the first row with that
address. -/
def findSocketByAddress (players : List (SocketId × PlayerState)) (addr : Addr) :
    Option SocketId :=
  (players.find? (fun e => e.2.address = addr)).map (·.1)

/-- `LobbyManager.removePlayerPermanently(address, lobbyId)`: delegates to
`removePlayer(null, address, lobbyId)`; the passed lobby id is ignored by
that path in favour of the `addressLobbies` lookup. -/
def removePlayerPermanently (m : Manager) (addr : Addr) (_lobbyId : LobbyId) : Manager :=
  match aget m.addressLobbies addr with
  | none => m
  | some id =>
    match findSocketByAddress (getLobbyState m id).players addr with
    | none => m
    | some sid => removeCore m id sid

/-- `LobbyManager.handleReconnection`: find a `temporarily_disconnected`
player row for the address, rebind it to the new socket id, set both the
player row and the balance row back to `active`. Returns whether a
reconnection was performed. -/
def handleReconnection (m : Manager) (sid : SocketId) (addr : Addr) (id : LobbyId) :
    Bool × Manager :=
  let lobby := getLobbyState m id
  match lobby.players.find? (fun e =>
      e.2.address = addr ∧ e.2.pstatus = PStatus.temporarily_disconnected) with
  | some entry =>
    let oldSid := entry.1
    let p := entry.2
    let players' := aset (adel lobby.players oldSid) sid ({ p with pstatus := PStatus.active })
    let balances' := updateEntry lobby.balances addr
      (fun b => { b with bstatus := PStatus.active })
    (true,
     { m with
       lobbies := aset m.lobbies id ({ lobby with players := players', balances := balances' }),
       playerLobbies := aset (adel m.playerLobbies oldSid) sid id })
  | none => (false, { m with lobbies := aset m.lobbies id lobby })

/-- `LobbyManager.handleKill`: both sockets must map to the same lobby and
the victim's player row must be `active`; then the victim's entire player
balance moves to the killer, the victim dies, and the balance rows are
synchronised from the player rows. The sequential updates reproduce the
source's object aliasing when killer and victim share a socket or an
address. -/
def handleKill (m : Manager) (ksid vsid : SocketId) : Manager :=
  match aget m.playerLobbies ksid, aget m.playerLobbies vsid with
  | some kid, some vid =>
    if kid = vid then
      let lobby := getLobbyState m kid
      match aget lobby.players ksid, aget lobby.players vsid with
      | some killer, some victim =>
        if victim.pstatus = PStatus.active then
          let victimBalance := victim.balance
          let players1 := aset lobby.players ksid
            ({ killer with balance := killer.balance + victimBalance })
          let players2 := updateEntry players1 vsid
            (fun v1 => { v1 with balance := 0, pstatus := PStatus.dead })
          let killerNow := (aget players2 ksid).getD killer
          let balances1 := updateEntry lobby.balances killer.address
            (fun b => { b with amount := killerNow.balance })
          let balances2 := updateEntry balances1 victim.address
            (fun b => { b with amount := 0, bstatus := PStatus.dead })
          { m with lobbies :=
              (aset m.lobbies kid ({ lobby with players := players2, balances := balances2 })) }
        else { m with lobbies := aset m.lobbies kid lobby }
      | _, _ => { m with lobbies := aset m.lobbies kid lobby }
    else m
  | _, _ => m

/-- `LobbyManager.handleCashOut`: freeze an `active` player of an `active`
lobby once the cash-out grace period has elapsed; both the player row and
the balance row become `frozen`, amounts unchanged. -/
def handleCashOut (m : Manager) (sid : SocketId) (now : Nat) : Bool × Manager :=
  match aget m.playerLobbies sid with
  | none => (false, m)
  | some id =>
    let lobby := getLobbyState m id
    match aget lobby.players sid with
    | none => (false, { m with lobbies := aset m.lobbies id lobby })
    | some p =>
      if p.pstatus ≠ PStatus.active then (false, { m with lobbies := aset m.lobbies id lobby })
      else if lobby.lstate ≠ LState.active then
        (false, { m with lobbies := aset m.lobbies id lobby })
      else if now < lobby.startTime.getD 0 + cashOutGraceSeconds * 1000 then
        (false, { m with lobbies := aset m.lobbies id lobby })
      else
        let players' := aset lobby.players sid ({ p with pstatus := PStatus.frozen })
        let balances' := updateEntry lobby.balances p.address
          (fun b => { b with bstatus := PStatus.frozen })
        (true, { m with lobbies :=
                   (aset m.lobbies id ({ lobby with players := players', balances := balances' })) })

/-- The amount `getFinalBalances` reports for one balance row: `frozen`
and `active` rows keep their amount; `temporarily_disconnected` and
`dead` rows are reported as `0`. -/
def finalAmount (b : BalanceEntry) : Nat :=
  match b.bstatus with
  | PStatus.frozen => b.amount
  | PStatus.active => b.amount
  | PStatus.temporarily_disconnected => 0
  | PStatus.dead => 0

/-- Insertion sort by address, modelling the deterministic
address-ordered `balances.sort(...)` of `getFinalBalances`. -/
def insertSorted (e : Addr × Nat) : List (Addr × Nat) → List (Addr × Nat)
  | [] => [e]
  | f :: t => if e.1 ≤ f.1 then e :: f :: t else f :: insertSorted e t

def sortByAddress : List (Addr × Nat) → List (Addr × Nat)
  | [] => []
  | e :: t => insertSorted e (sortByAddress t)

/-- `LobbyManager.getFinalBalances`: the settlement snapshot — every
balance row ever seen, with `finalAmount` applied, sorted by address. -/
def getFinalBalances (lobby : Lobby) : List (Addr × Nat) :=
  sortByAddress (lobby.balances.map (fun e => (e.1, finalAmount e.2)))

/-- `getFinalBalances` as the manager method (reads the lobby). -/
def Manager.finalBalances (m : Manager) (id : LobbyId) : List (Addr × Nat) :=
  getFinalBalances (getLobbyState m id)

/-- `LobbyManager.markFinalizable`: `active → finalizable` only. -/
def markFinalizable (m : Manager) (id : LobbyId) : Manager :=
  let lobby := getLobbyState m id
  let lobby' :=
    if lobby.lstate = LState.active then { lobby with lstate := LState.finalizable } else lobby
  { m with lobbies := aset m.lobbies id lobby' }

/-- `LobbyManager.markFinalized`: unconditionally sets `finalized`. -/
def markFinalized (m : Manager) (id : LobbyId) : Manager :=
  let lobby := getLobbyState m id
  { m with lobbies := aset m.lobbies id ({ lobby with lstate := LState.finalized }) }

/-- `LobbyManager.getLobbiesReadyForFinalization`: every stored lobby with
`state === 'active'` and a set `endTime ≤ now`. -/
def getLobbiesReadyForFinalization (m : Manager) (now : Nat) : List LobbyId :=
  (m.lobbies.filter (fun e =>
      decide (e.2.lstate = LState.active) &&
      match e.2.endTime with
      | some t => decide (t ≤ now)
      | none => false)).map (·.1)

/-- `LobbyManager.despawnLobbyPlayers`: force-remove every player of the
lobby through `removePlayer(socketId, null, lobbyId)`. -/
def despawnLobbyPlayers (m : Manager) (id : LobbyId) : Manager :=
  (akeys (getLobbyState m id).players).foldl (fun acc sid => removePlayerBySocket acc sid) m

/-! ## Settlement calculator (`FinalizationJob.finalizeLobby`)

Two mutually-divergent settlement formulas appear in the source; both are
embedded. `computeSettlement` is the back-solved variant actually wired to
`contractClient.distributeRewards`; `computeSettlementFlat` is the
flat-percentage + dead-money variant. -/

/-- The settlement output handed to `contractClient.distributeRewards`. -/
structure Settlement where
  recipients : List Addr
  amounts : List Nat
  totalPayout : Nat
  totalFee : Int
deriving DecidableEq

/-- `activeTotalBalance`: sum of the snapshot amounts. -/
def activeTotalBalance (fb : List (Addr × Nat)) : Nat :=
  (fb.map (·.2)).sum

/-- `totalPayout = Math.floor((activeTotalBalance * 10000) / (10000 + feeBps))`. -/
def settleTotalPayout (fb : List (Addr × Nat)) : Nat :=
  activeTotalBalance fb * 10000 / (10000 + feeBps)

/-- `totalFee = totalDeposits - totalPayout` (a JS number, so it can go
negative; modelled in `Int`). -/
def settleTotalFee (fb : List (Addr × Nat)) (totalDeposits : Nat) : Int :=
  (totalDeposits : Int) - (settleTotalPayout fb : Int)

/-- One recipient's share: `Math.floor((balance.amount * totalPayout) /
activeTotalBalance)` for positive balances, `0` otherwise. -/
def playerShare (fb : List (Addr × Nat)) (amt : Nat) : Nat :=
  if 0 < amt ∧ 0 < activeTotalBalance fb then
    amt * settleTotalPayout fb / activeTotalBalance fb
  else 0

/-- The back-solved settlement variant (the one submitted on-chain):
`totalPayout` is derived from `activeTotalBalance` and the fee ratio,
`totalFee` back-solved from `totalDeposits`, and the payout distributed
proportionally. -/
def computeSettlement (fb : List (Addr × Nat)) (totalDeposits : Nat) : Settlement :=
  { recipients := fb.map (·.1),
    amounts := fb.map (fun b => playerShare fb b.2),
    totalPayout := settleTotalPayout fb,
    totalFee := settleTotalFee fb totalDeposits }

/-- Per-balance flat fee `Math.floor((balance.amount * feeBps) / 10000)`
of the flat-percentage variant. -/
def flatFee (amt : Nat) : Nat := amt * feeBps / 10000

/-- The flat-percentage settlement variant: each positive balance pays a
flat percentage fee, and any "dead money" shortfall against
`totalDeposits` is folded into the fee afterwards. -/
def computeSettlementFlat (fb : List (Addr × Nat)) (totalDeposits : Nat) : Settlement :=
  let withFee := fb.map (fun b => if 0 < b.2 then (b.1, b.2 - flatFee b.2) else b)
  let totalPayout := ((fb.filter (fun b => decide (0 < b.2))).map
    (fun b => b.2 - flatFee b.2)).sum
  let fee0 := ((fb.filter (fun b => decide (0 < b.2))).map (fun b => flatFee b.2)).sum
  let activePlayerPayouts := (withFee.map (·.2)).sum
  let deadMoney : Int := (totalDeposits : Int) - (activePlayerPayouts : Int) - (fee0 : Int)
  { recipients := withFee.map (·.1),
    amounts := withFee.map (·.2),
    totalPayout := totalPayout,
    totalFee := if 0 < deadMoney then (fee0 : Int) + deadMoney else (fee0 : Int) }

/-! ## The external validator (`BetLobby.distributeRewards` requires) -/

/-- `expectedFee = (totalPayout * feeBps) / 10000` of the contract. -/
def expectedFee (totalPayout : Nat) : Nat := totalPayout * feeBps / 10000

/-- The arithmetic contract `BetLobby.distributeRewards` enforces on a
submission: `totalPayout + feeAmount == totalDeposits`, and `feeAmount`
within ±1 of `expectedFee` (stated over `Int`, i.e. in exact arithmetic). -/
def validatorAccepts (s : Settlement) (totalDeposits : Nat) : Prop :=
  (s.totalPayout : Int) + s.totalFee = (totalDeposits : Int) ∧
  (s.totalFee - (expectedFee s.totalPayout : Int)).natAbs ≤ 1

instance (s : Settlement) (totalDeposits : Nat) :
    Decidable (validatorAccepts s totalDeposits) :=
  inferInstanceAs (Decidable (And _ _))

/-! ## Finalization job (`FinalizationJob.finalizeLobby`, used variant) -/

/-- `totalDeposits = lobby.balances.size * config.blockchain.depositAmount`
as computed by `finalizeLobby`. -/
def lobbyTotalDeposits (m : Manager) (id : LobbyId) : Nat :=
  (getLobbyState m id).balances.length * depositAmount

/-- The settlement `finalizeLobby` would submit for the lobby (computed
after the forced despawn and `markFinalizable`, on the snapshot). -/
def finalizeSettlement (m : Manager) (id : LobbyId) : Settlement :=
  let m2 := markFinalizable (despawnLobbyPlayers m id) id
  computeSettlement (Manager.finalBalances m2 id) (lobbyTotalDeposits m2 id)

/-- `FinalizationJob.finalizeLobby` as a state change, with the outcome of
the external submission (`contractClient.distributeRewards`, which throws
after its bounded retries are exhausted) supplied as `submitOk`. On
failure the exception propagates before `markFinalized` is reached. -/
def finalizeLobby (m : Manager) (id : LobbyId) (submitOk : Bool) : Manager :=
  let lobby := getLobbyState m id
  if lobby.lstate = LState.finalized then m
  else
    let m1 := despawnLobbyPlayers m id
    let m2 := markFinalizable m1 id
    if submitOk then markFinalized m2 id else m2

/-! ## Deposit verifier (`EventListener`) -/

/-- The `EventListener.deposits` cache: keyed by lower-cased address
alone; each record stores the lobby id the deposit was observed for.
(The source stores `lobbyId.toString()` and compares with
`lobbyId.toString()`; `Nat` equality is equivalent since `toString` is
injective on `Nat`.) -/
abbrev DepositCache := List (Addr × LobbyId)

/-- Recording a deposit observation (both the `LobbyJoined` event handler
in `EventListener.start` and the success path of
`EventListener.verifyDeposit` do `this.deposits.set(address, info)`). -/
def observeDeposit (cache : DepositCache) (addr : Addr) (id : LobbyId) : DepositCache :=
  aset cache addr id

/-- `EventListener.hasDeposited(address, lobbyId)`: cache lookup by
address, then compare the stored lobby id. -/
def hasDeposited (cache : DepositCache) (addr : Addr) (id : LobbyId) : Bool :=
  match aget cache addr with
  | none => false
  | some stored => stored = id

/-! ## Operation sequences

The externally-driven operations of the engine, as invoked by
`server.js` (socket handlers) and the finalization pipeline. Each
operation carries the data its handler receives; time-dependent handlers
carry the `Date.now()` value they observe. -/

inductive GameOp where
  /-- A bare `getLobby` reference (lazy creation). -/
  | create (id : LobbyId)
  /-- `activateLobby` (fired by the deposit-confirmation handler). -/
  | activate (id : LobbyId) (now : Nat)
  /-- A confirmed deposit: the `playerDepositConfirmed` handler flow —
  `activateLobby`, then `handleReconnection`, then `addPlayer` if the
  address was not reconnecting. -/
  | deposit (id : LobbyId) (sid : SocketId) (addr : Addr) (now : Nat)
  /-- An elimination event (`handleKill`). -/
  | kill (ksid vsid : SocketId)
  /-- A network disconnect (`markTemporarilyDisconnected`). -/
  | disconnect (sid : SocketId)
  /-- A cash-out request (`handleCashOut`). -/
  | cashOut (sid : SocketId) (now : Nat)
  /-- Grace-period expiry (`removePlayerPermanently`). -/
  | removeByAddr (addr : Addr) (id : LobbyId)
  /-- Intentional exit (`removePlayer` by socket). -/
  | removeBySocket (sid : SocketId)
  /-- `markFinalizable` (finalization pipeline). -/
  | finalizableMark (id : LobbyId)
  /-- `markFinalized` (finalization pipeline). -/
  | finalizedMark (id : LobbyId)
deriving DecidableEq

/-- Apply one operation to the manager state. -/
def applyOp (m : Manager) (op : GameOp) : Manager :=
  match op with
  | GameOp.create id => ensureLobby m id
  | GameOp.activate id now => activateLobby m id now
  | GameOp.deposit id sid addr now =>
    let m1 := activateLobby (ensureLobby m id) id now
    match handleReconnection m1 sid addr id with
    | (true, m2) => m2
    | (false, m2) => addPlayer m2 id sid addr
  | GameOp.kill ksid vsid => handleKill m ksid vsid
  | GameOp.disconnect sid => markTemporarilyDisconnected m sid
  | GameOp.cashOut sid now => (handleCashOut m sid now).2
  | GameOp.removeByAddr addr id => removePlayerPermanently m addr id
  | GameOp.removeBySocket sid => removePlayerBySocket m sid
  | GameOp.finalizableMark id => markFinalizable m id
  | GameOp.finalizedMark id => markFinalized m id

/-- Run a sequence of operations from a starting state. -/
def runFrom (m : Manager) (ops : List GameOp) : Manager :=
  ops.foldl applyOp m

/-- Run a sequence of operations from a fresh manager. -/
def runOps (ops : List GameOp) : Manager :=
  runFrom Manager.init ops

/-- The addresses of the confirmed deposits a run contains for lobby
`id`, in order (one entry per deposit operation). -/
def depositAddrsTo (ops : List GameOp) (id : LobbyId) : List Addr :=
  ops.filterMap (fun op =>
    match op with
    | GameOp.deposit id' _ addr _ => if id' = id then some addr else none
    | _ => none)

/-- The lobby's total confirmed deposits over a run: one `depositAmount`
per confirmed deposit operation for that lobby. -/
def confirmedDeposits (ops : List GameOp) (id : LobbyId) : Nat :=
  (depositAddrsTo ops id).length * depositAmount

/-! ## Notions used by the lifecycle and conservation claims -/

/-- Position of a lobby state in the forward order
`waiting → active → finalizable → finalized`. -/
def lrank : LState → Nat
  | LState.waiting => 0
  | LState.active => 1
  | LState.finalizable => 2
  | LState.finalized => 3

/-- The balance-ledger addresses of a lobby, in insertion order. -/
def balKeys (m : Manager) (id : LobbyId) : List Addr :=
  akeys (getLobbyState m id).balances

/-- Every player row of one lobby has a backing balance row. -/
def Covered1 (l : Lobby) : Prop :=
  ∀ e ∈ l.players, e.2.address ∈ akeys l.balances

/-- Every player row's address has a balance row (`addPlayer` creates
both; reconnection rebinds an existing row). -/
def PlayersCovered (m : Manager) : Prop :=
  ∀ id, Covered1 (getLobbyState m id)

/-- The balance ledger never holds two rows for one address. -/
def BalNodup (m : Manager) : Prop :=
  ∀ id, (akeys (getLobbyState m id).balances).Nodup

/-- The set of balance-ledger addresses of a lobby. -/
def keysFinset (m : Manager) (id : LobbyId) : Finset Addr :=
  (balKeys m id).toFinset

/-- The addresses a single operation can add to a lobby's ledger: only a
deposit for that lobby adds its address. -/
def opDepositKeys : GameOp → LobbyId → Finset Addr
  | GameOp.deposit id _ addr _, id' => if id = id' then {addr} else ∅
  | _, _ => ∅

/-! ## Concrete fixtures used by counterexamples and witnesses -/

/-- A lobby with one active deposited player `"a"` on socket `"s1"`. -/
def oneActiveLobby : Lobby :=
  { lstate := LState.active, startTime := some 0, endTime := some 300000,
    players := [("s1", { address := "a", balance := depositAmount, pstatus := PStatus.active })],
    balances := [("a", { amount := depositAmount, bstatus := PStatus.active })] }

/-- A manager holding `oneActiveLobby` as lobby `0`. -/
def mgrOneActive : Manager :=
  { lobbies := [(0, oneActiveLobby)],
    playerLobbies := [("s1", 0)],
    addressLobbies := [("a", 0)] }

/-- A lobby with one player who has cashed out (frozen). -/
def oneFrozenLobby : Lobby :=
  { lstate := LState.active, startTime := some 0, endTime := some 300000,
    players := [("s1", { address := "a", balance := depositAmount, pstatus := PStatus.frozen })],
    balances := [("a", { amount := depositAmount, bstatus := PStatus.frozen })] }

/-- A manager holding `oneFrozenLobby` as lobby `0`. -/
def mgrOneFrozen : Manager :=
  { lobbies := [(0, oneFrozenLobby)],
    playerLobbies := [("s1", 0)],
    addressLobbies := [("a", 0)] }

/-- A lobby with two active deposited players (killer `"k"`/`"a"`,
victim `"v"`/`"b"`). -/
def twoPlayerLobby : Lobby :=
  { lstate := LState.active, startTime := some 0, endTime := some 300000,
    players := [("k", { address := "a", balance := depositAmount, pstatus := PStatus.active }),
                ("v", { address := "b", balance := depositAmount, pstatus := PStatus.active })],
    balances := [("a", { amount := depositAmount, bstatus := PStatus.active }),
                 ("b", { amount := depositAmount, bstatus := PStatus.active })] }

/-- A manager holding `twoPlayerLobby` as lobby `0`. -/
def mgrTwoPlayers : Manager :=
  { lobbies := [(0, twoPlayerLobby)],
    playerLobbies := [("k", 0), ("v", 0)],
    addressLobbies := [("a", 0), ("b", 0)] }

/-! ## Lemmas about the map model -/

@[simp]
theorem aget_nil {k v : Type} [DecidableEq k] (key : k) :
    aget ([] : List (k × v)) key = none := rfl

theorem aget_aset {k v : Type} [DecidableEq k] (m : List (k × v)) (key key' : k) (val : v) :
    aget (aset m key val) key' = if key = key' then some val else aget m key' := by
  induction m with
  | nil => simp [aset, aget]
  | cons e t ih =>
    by_cases h1 : e.1 = key
    · subst h1
      by_cases h2 : e.1 = key' <;> simp [aset, aget, h2]
    · by_cases h2 : e.1 = key' <;> by_cases h3 : key = key' <;>
        simp_all [aset, aget]

@[simp]
theorem aget_aset_self {k v : Type} [DecidableEq k] (m : List (k × v)) (key : k) (val : v) :
    aget (aset m key val) key = some val := by
  simp [aget_aset]

theorem aget_aset_ne {k v : Type} [DecidableEq k] (m : List (k × v)) {key key' : k} (val : v)
    (h : key ≠ key') : aget (aset m key val) key' = aget m key' := by
  simp [aget_aset, h]

/-- Writing back the value already stored at a key leaves the list unchanged. -/
theorem aset_eq_of_aget {k v : Type} [DecidableEq k] (m : List (k × v)) (key : k) (val : v)
    (h : aget m key = some val) : aset m key val = m := by
  induction m with
  | nil => simp [aget] at h
  | cons e t ih =>
    by_cases h1 : e.1 = key
    · subst h1
      simp [aget] at h
      simp [aset, ← h]
    · simp [aget, h1] at h
      simp [aset, h1, ih h]

@[simp]
theorem akeys_nil {k v : Type} : akeys ([] : List (k × v)) = [] := rfl

@[simp]
theorem akeys_cons {k v : Type} (e : k × v) (t : List (k × v)) :
    akeys (e :: t) = e.1 :: akeys t := rfl

theorem akeys_aset_of_mem {k v : Type} [DecidableEq k] (m : List (k × v)) (key : k) (val : v)
    (h : key ∈ akeys m) : akeys (aset m key val) = akeys m := by
  induction m with
  | nil => simp at h
  | cons e t ih =>
    by_cases h1 : e.1 = key
    · simp [aset, h1]
    · rw [akeys_cons] at h
      rcases List.mem_cons.mp h with h2 | h2
      · exact absurd h2.symm h1
      · simp only [aset, if_neg h1, akeys_cons, ih h2]

theorem akeys_aset_of_not_mem {k v : Type} [DecidableEq k] (m : List (k × v)) (key : k) (val : v)
    (h : key ∉ akeys m) : akeys (aset m key val) = akeys m ++ [key] := by
  induction m with
  | nil => simp [aset]
  | cons e t ih =>
    rw [akeys_cons] at h
    have h1 : e.1 ≠ key := fun hh => h (by simp [hh])
    have h2 : key ∉ akeys t := fun hh => h (List.mem_cons_of_mem _ hh)
    simp only [aset, if_neg h1, akeys_cons, ih h2, List.cons_append]

theorem aget_isSome_iff_mem_akeys {k v : Type} [DecidableEq k] (m : List (k × v)) (key : k) :
    (aget m key).isSome ↔ key ∈ akeys m := by
  induction m with
  | nil => simp [aget]
  | cons e t ih =>
    by_cases h1 : e.1 = key
    · simp [aget, h1]
    · rw [akeys_cons]
      simp only [aget, if_neg h1, ih, List.mem_cons]
      constructor
      · exact Or.inr
      · rintro (h | h)
        · exact absurd h.symm h1
        · exact h

theorem mem_of_mem_aset {k v : Type} [DecidableEq k] {m : List (k × v)} {key : k} {val : v}
    {e : k × v} (h : e ∈ aset m key val) : e = (key, val) ∨ e ∈ m := by
  induction m with
  | nil => simp [aset] at h; simp [h]
  | cons f t ih =>
    by_cases h1 : f.1 = key
    · simp [aset, h1] at h
      rcases h with h | h
      · exact Or.inl h
      · exact Or.inr (List.mem_cons_of_mem _ h)
    · simp [aset, h1] at h
      rcases h with h | h
      · exact Or.inr (by simp [h])
      · rcases ih h with h2 | h2
        · exact Or.inl h2
        · exact Or.inr (List.mem_cons_of_mem _ h2)

theorem mem_of_mem_adel {k v : Type} [DecidableEq k] {m : List (k × v)} {key : k}
    {e : k × v} (h : e ∈ adel m key) : e ∈ m := by
  induction m with
  | nil => simp [adel] at h
  | cons f t ih =>
    by_cases h1 : f.1 = key
    · simp [adel, h1] at h
      exact List.mem_cons_of_mem _ h
    · simp [adel, h1] at h
      rcases h with h | h
      · simp [h]
      · exact List.mem_cons_of_mem _ (ih h)

/-! ## C1: the settlement output versus the validator's contract -/

/-- C1 (counterexample): on the snapshot `[("a", 1000000)]` with total
deposits `2000000` (one live balance, one forfeited deposit — "dead
money"), the Settlement Calculator's output violates the external
validator's fee tolerance: `totalFee = 1047620` but
`floor(totalPayout * feeBps / 10000) = 47619`, off by far more than one
unit. So the output does not satisfy the validator's arithmetic contract
for every snapshot and total-deposits value. -/
theorem c1_counterexample :
    ¬ validatorAccepts (computeSettlement [("a", 1000000)] 2000000) 2000000 := by
  decide

/-- C1 (amended): the Settlement Calculator's output satisfies the
external validator's arithmetic contract — `totalPayout + totalFee ==
totalDeposits` and `totalFee` within ±1 of
`floor(totalPayout * feeBps / 10000)` with `feeBps = 500` — whenever the
snapshot's `activeTotalBalance` equals the total-deposits value, i.e.
whenever no dead money exists. -/
theorem c1_settlement_contract (fb : List (Addr × Nat)) (D : Nat)
    (h : activeTotalBalance fb = D) :
    validatorAccepts (computeSettlement fb D) D := by
  subst h
  have hTP : (computeSettlement fb (activeTotalBalance fb)).totalPayout =
      settleTotalPayout fb := rfl
  have hTF : (computeSettlement fb (activeTotalBalance fb)).totalFee =
      settleTotalFee fb (activeTotalBalance fb) := rfl
  unfold validatorAccepts
  rw [hTP, hTF]
  constructor
  · unfold settleTotalFee
    ring
  · unfold settleTotalFee settleTotalPayout expectedFee feeBps
    rw [show (10000 + 500 : Nat) = 10500 from rfl]
    have hp := Nat.div_add_mod (activeTotalBalance fb * 10000) 10500
    have hp2 : activeTotalBalance fb * 10000 % 10500 < 10500 :=
      Nat.mod_lt _ (by norm_num)
    have hf := Nat.div_add_mod (activeTotalBalance fb * 10000 / 10500 * 500) 10000
    have hf2 : activeTotalBalance fb * 10000 / 10500 * 500 % 10000 < 10000 :=
      Nat.mod_lt _ (by norm_num)
    omega

/-- C1 witness: the amended theorem applied to a two-player no-dead-money
snapshot. -/
theorem c1_settlement_contract_witness :
    validatorAccepts (computeSettlement [("a", 1000000), ("b", 1000000)] 2000000) 2000000 :=
  c1_settlement_contract [("a", 1000000), ("b", 1000000)] 2000000 (by decide)

/-! ## C3: zero-sum kills and the non-active no-op -/

/-- C3: for a kill with killer and victim resolved in the same lobby
(distinct sockets, distinct addresses, both with player and balance
rows): if the victim's status is `active`, the kill sets the killer's
player balance to the sum of the two prior balances and the victim's to
`0` with status `dead`, and mirrors this into the balance ledger; if the
victim is not `active` (disconnected, frozen or dead), the operation is
a complete no-op on the manager state. -/
theorem c3_kill_zero_sum (m : Manager) (ksid vsid : SocketId) (L : LobbyId) (lob : Lobby)
    (kp vp : PlayerState) (kb vb : BalanceEntry)
    (hkL : aget m.playerLobbies ksid = some L)
    (hvL : aget m.playerLobbies vsid = some L)
    (hlob : aget m.lobbies L = some lob)
    (hkp : aget lob.players ksid = some kp)
    (hvp : aget lob.players vsid = some vp)
    (hkb : aget lob.balances kp.address = some kb)
    (hvb : aget lob.balances vp.address = some vb)
    (hne : ksid ≠ vsid)
    (hane : kp.address ≠ vp.address) :
    (vp.pstatus = PStatus.active →
      aget (getLobbyState (handleKill m ksid vsid) L).players ksid =
        some { kp with balance := kp.balance + vp.balance } ∧
      aget (getLobbyState (handleKill m ksid vsid) L).players vsid =
        some { vp with balance := 0, pstatus := PStatus.dead } ∧
      aget (getLobbyState (handleKill m ksid vsid) L).balances kp.address =
        some { kb with amount := kp.balance + vp.balance } ∧
      aget (getLobbyState (handleKill m ksid vsid) L).balances vp.address =
        some { vb with amount := 0, bstatus := PStatus.dead }) ∧
    (vp.pstatus ≠ PStatus.active → handleKill m ksid vsid = m) := by
  have hgl : getLobbyState m L = lob := by simp [getLobbyState, hlob]
  have hvp1 : aget (aset lob.players ksid
      ({ kp with balance := kp.balance + vp.balance })) vsid = some vp := by
    rw [aget_aset_ne _ _ hne]; exact hvp
  constructor
  · intro hstat
    have hkp2 : aget (aset (aset lob.players ksid
        ({ kp with balance := kp.balance + vp.balance })) vsid
        ({ vp with balance := 0, pstatus := PStatus.dead })) ksid =
        some ({ kp with balance := kp.balance + vp.balance }) := by
      rw [aget_aset_ne _ _ (Ne.symm hne), aget_aset_self]
    have hvb1 : aget (aset lob.balances kp.address
        ({ kb with amount := kp.balance + vp.balance })) vp.address = some vb := by
      rw [aget_aset_ne _ _ hane]; exact hvb
    simp only [handleKill, updateEntry, hkL, hvL, hgl, hkp, hvp, if_pos hstat, hvp1, hkb,
      eq_self_iff_true, if_true, Option.getD_some, hkp2, hvb1]
    simp only [getLobbyState, aget_aset_self, Option.getD_some]
    refine ⟨hkp2, ?_, ?_, ?_⟩ <;> simp [aget_aset, hane, Ne.symm hane]
  · intro hstat
    simp only [handleKill, hkL, hvL, hgl, hkp, hvp, if_neg hstat,
      eq_self_iff_true, if_true]
    rw [aset_eq_of_aget m.lobbies L lob hlob]

/-- C3 witness: the theorem applied to the two-player fixture, active
victim and non-active victim having been instantiated through the same
statement (the non-active arm holds vacuously here). -/
theorem c3_kill_zero_sum_witness :
    aget (getLobbyState (handleKill mgrTwoPlayers "k" "v") 0).players "k" =
      some { address := "a", balance := 2000000, pstatus := PStatus.active } ∧
    aget (getLobbyState (handleKill mgrTwoPlayers "k" "v") 0).players "v" =
      some { address := "b", balance := 0, pstatus := PStatus.dead } ∧
    aget (getLobbyState (handleKill mgrTwoPlayers "k" "v") 0).balances "a" =
      some { amount := 2000000, bstatus := PStatus.active } ∧
    aget (getLobbyState (handleKill mgrTwoPlayers "k" "v") 0).balances "b" =
      some { amount := 0, bstatus := PStatus.dead } :=
  (c3_kill_zero_sum mgrTwoPlayers "k" "v" 0 twoPlayerLobby
    { address := "a", balance := depositAmount, pstatus := PStatus.active }
    { address := "b", balance := depositAmount, pstatus := PStatus.active }
    { amount := depositAmount, bstatus := PStatus.active }
    { amount := depositAmount, bstatus := PStatus.active }
    (by decide) (by decide) (by decide) (by decide) (by decide) (by decide) (by decide)
    (by decide) (by decide)).1 rfl

/-! ## C4: retry after failed external submission -/

/-- C4: a lobby that is eligible for settlement (`active`, `endTime ≤
now`) is returned by the scan, but after a finalization cycle whose
external submission fails, the lobby is left `finalizable` (not
`finalized`) and the scan — which only returns `active` lobbies — never
returns it again, so the settlement is never retried, contrary to the
claim and to the source's own comment that the job will retry. -/
theorem c4_failed_submission_never_rescanned :
    getLobbiesReadyForFinalization mgrOneActive 300000 = [0] ∧
    (getLobbyState (finalizeLobby mgrOneActive 0 false) 0).lstate = LState.finalizable ∧
    getLobbiesReadyForFinalization (finalizeLobby mgrOneActive 0 false) 300000 = [] := by
  decide

/-! ## C5: a second deposit by an already-active address -/

/-- C5 (counterexample): after `"a"` deposited on socket `"s1"`, a second
deposit by `"a"` on socket `"s2"` does not increase the total-deposits
value the settlement uses (`lobby.balances.size * depositAmount` stays at
one deposit), contradicting the claim that it increases. -/
theorem c5_counterexample :
    ¬ lobbyTotalDeposits (addPlayer mgrOneActive 0 "s2" "a") 0 >
        lobbyTotalDeposits mgrOneActive 0 := by
  decide

/-- C5 (amended): a second deposit by an address that already has a
ledger row leaves the lobby's balance ledger — and with it the
total-deposits value used at settlement — entirely unchanged; in
particular it creates no second balance row. -/
theorem c5_second_deposit_no_change (m : Manager) (L : LobbyId) (sid : SocketId) (addr : Addr)
    (h : (aget (getLobbyState m L).balances addr).isSome) :
    (getLobbyState (addPlayer m L sid addr) L).balances = (getLobbyState m L).balances ∧
    lobbyTotalDeposits (addPlayer m L sid addr) L = lobbyTotalDeposits m L := by
  obtain ⟨w, hw⟩ := Option.isSome_iff_exists.mp h
  have hb : (getLobbyState (addPlayer m L sid addr) L).balances =
      (getLobbyState m L).balances := by
    simp only [addPlayer, insertIfAbsent, hw]
    simp [getLobbyState, aget_aset]
  exact ⟨hb, by unfold lobbyTotalDeposits; rw [hb]⟩

/-- C5 witness: the amended theorem applied to the one-player fixture. -/
theorem c5_second_deposit_no_change_witness :
    (getLobbyState (addPlayer mgrOneActive 0 "s2" "a") 0).balances =
      (getLobbyState mgrOneActive 0).balances ∧
    lobbyTotalDeposits (addPlayer mgrOneActive 0 "s2" "a") 0 =
      lobbyTotalDeposits mgrOneActive 0 :=
  c5_second_deposit_no_change mgrOneActive 0 "s2" "a" (by decide)

/-! ## C6: permanent removal of a frozen participant -/

/-- C6 (counterexample): permanently removing the cashed-out (frozen)
participant `"a"` leaves their balance row at `{amount := 1000000,
frozen}` — it is *not* set to `balance = 0, status = dead`, contradicting
the claim for frozen participants. -/
theorem c6_counterexample :
    aget (getLobbyState (removePlayerPermanently mgrOneFrozen "a" 0) 0).balances "a" =
      some { amount := 1000000, bstatus := PStatus.frozen } ∧
    aget (getLobbyState (removePlayerPermanently mgrOneFrozen "a" 0) 0).balances "a" ≠
      some { amount := 0, bstatus := PStatus.dead } := by
  decide

/-- C6 (amended): the socket-resolved permanent-removal operation zeroes
the balance row and marks it dead exactly when the player's status is
`active` or `temporarily_disconnected`; a `frozen` participant's balance
ledger is left unchanged. -/
theorem c6_remove_permanently (m : Manager) (sid : SocketId) (L : LobbyId) (lob : Lobby)
    (p : PlayerState)
    (hsid : aget m.playerLobbies sid = some L)
    (hlob : aget m.lobbies L = some lob)
    (hp : aget lob.players sid = some p)
    (hb : (aget lob.balances p.address).isSome) :
    (p.pstatus = PStatus.active ∨ p.pstatus = PStatus.temporarily_disconnected →
      aget (getLobbyState (removePlayerBySocket m sid) L).balances p.address =
        some { amount := 0, bstatus := PStatus.dead }) ∧
    (p.pstatus = PStatus.frozen →
      (getLobbyState (removePlayerBySocket m sid) L).balances = lob.balances) := by
  obtain ⟨w, hw⟩ := Option.isSome_iff_exists.mp hb
  have hgl : getLobbyState m L = lob := by simp [getLobbyState, hlob]
  constructor
  · intro hstat
    simp only [removePlayerBySocket, removeCore, updateEntry, hsid, hgl, hp, hw, if_pos hstat]
    simp [getLobbyState, aget_aset]
  · intro hstat
    have hns : ¬ (p.pstatus = PStatus.active ∨
        p.pstatus = PStatus.temporarily_disconnected) := by
      rw [hstat]; decide
    simp only [removePlayerBySocket, removeCore, hsid, hgl, hp, if_neg hns]
    simp [getLobbyState, aget_aset]

/-- C6 witness: the amended theorem applied to the frozen-player fixture
(frozen case) and to the active-player fixture (zeroing case). -/
theorem c6_remove_permanently_witness :
    ((PStatus.active = PStatus.active ∨ PStatus.active = PStatus.temporarily_disconnected →
      aget (getLobbyState (removePlayerBySocket mgrOneActive "s1") 0).balances "a" =
        some { amount := 0, bstatus := PStatus.dead }) ∧
     (PStatus.active = PStatus.frozen →
      (getLobbyState (removePlayerBySocket mgrOneActive "s1") 0).balances =
        oneActiveLobby.balances)) ∧
    ((PStatus.frozen = PStatus.active ∨ PStatus.frozen = PStatus.temporarily_disconnected →
      aget (getLobbyState (removePlayerBySocket mgrOneFrozen "s1") 0).balances "a" =
        some { amount := 0, bstatus := PStatus.dead }) ∧
     (PStatus.frozen = PStatus.frozen →
      (getLobbyState (removePlayerBySocket mgrOneFrozen "s1") 0).balances =
        oneFrozenLobby.balances)) :=
  ⟨c6_remove_permanently mgrOneActive "s1" 0 oneActiveLobby
      { address := "a", balance := depositAmount, pstatus := PStatus.active }
      (by decide) (by decide) (by decide) (by decide),
   c6_remove_permanently mgrOneFrozen "s1" 0 oneFrozenLobby
      { address := "a", balance := depositAmount, pstatus := PStatus.frozen }
      (by decide) (by decide) (by decide) (by decide)⟩

/-! ## C7: snapshot of a pending temporarily-disconnected participant -/

/-- C7: after `"a"` (balance 1000000) is marked temporarily disconnected
and neither reconnects nor is removed, the snapshot reports
`("a", 1000000)` — not `amount = 0` as the claim (and the snapshot's own
unreachable `temporarily_disconnected` branch) prescribe, because
`markTemporarilyDisconnected` never writes the status into the balance
row that the snapshot reads. -/
theorem c7_snapshot_reports_full_amount :
    aget (getLobbyState (markTemporarilyDisconnected mgrOneActive "s1") 0).players "s1" =
      some { address := "a", balance := 1000000,
             pstatus := PStatus.temporarily_disconnected } ∧
    Manager.finalBalances (markTemporarilyDisconnected mgrOneActive "s1") 0 =
      [("a", 1000000)] := by
  decide

/-! ## C8: the two settlement-formula variants diverge -/

/-- C8: the two settlement variants in the source are mutually
inconsistent — on the snapshot `[("a", 1000000), ("b", 1000000)]` with
total deposits `2000000` the back-solved variant pays `952380` each
(totalPayout `1904761`, totalFee `95239`) while the flat-percentage
variant pays `950000` each (totalPayout `1900000`, totalFee `100000`). -/
theorem c8_settlement_variants_inconsistent :
    ∃ (fb : List (Addr × Nat)) (D : Nat),
      computeSettlement fb D ≠ computeSettlementFlat fb D :=
  ⟨[("a", 1000000), ("b", 1000000)], 2000000, by decide⟩

/-! ## C10: the deposit cache is keyed by address alone -/

/-- C10: after a deposit by an address is observed (or verified) for
lobby `b`, `hasDeposited(address, a)` is `false` for every other lobby
`a`, whatever the cache previously held for that address — the
single-record-per-address cache forgets earlier lobbies. -/
theorem c10_cache_keyed_by_address (cache : DepositCache) (addr : Addr) (a b : LobbyId)
    (h : a ≠ b) : hasDeposited (observeDeposit cache addr b) addr a = false := by
  unfold hasDeposited observeDeposit
  rw [aget_aset_self]
  simp
  exact fun hh => h hh.symm

/-- C10 witness: address `"a"` had a confirmed deposit for lobby `5`;
after a deposit for lobby `7` is observed, `hasDeposited("a", 5)` is
`false`. -/
theorem c10_cache_keyed_by_address_witness :
    hasDeposited (observeDeposit [("a", 5)] "a" 7) "a" 5 = false :=
  c10_cache_keyed_by_address [("a", 5)] "a" 5 7 (by decide)

/-! ## C9: the lobby state machine only advances -/

theorem getLobbyState_set (lbs : List (LobbyId × Lobby)) (id : LobbyId) (l : Lobby)
    (pl : List (SocketId × LobbyId)) (al : List (Addr × LobbyId)) (id' : LobbyId) :
    getLobbyState { lobbies := aset lbs id l, playerLobbies := pl, addressLobbies := al } id' =
      if id = id' then l else (aget lbs id').getD Lobby.empty := by
  unfold getLobbyState
  simp only [aget_aset]
  by_cases h : id = id' <;> simp [h]

theorem lrank_le_three (s : LState) : lrank s ≤ 3 := by
  cases s <;> decide

theorem lrank_mono_ensureLobby (m : Manager) (id id' : LobbyId) :
    lrank (getLobbyState m id').lstate ≤ lrank (getLobbyState (ensureLobby m id) id').lstate := by
  simp only [ensureLobby]
  rw [getLobbyState_set]
  by_cases h : id = id'
  · subst h; simp
  · rw [if_neg h]; exact le_refl _

theorem lrank_mono_activateLobby (m : Manager) (id : LobbyId) (now : Nat) (id' : LobbyId) :
    lrank (getLobbyState m id').lstate ≤
      lrank (getLobbyState (activateLobby m id now) id').lstate := by
  simp only [activateLobby]
  rw [getLobbyState_set]
  by_cases h : id = id'
  · subst h; rw [if_pos rfl]
    by_cases hw : (getLobbyState m id).lstate = LState.waiting
    · rw [if_pos hw, hw]
      exact Nat.zero_le _
    · rw [if_neg hw]
  · rw [if_neg h]; exact le_refl _

theorem lrank_mono_addPlayer (m : Manager) (id : LobbyId) (sid : SocketId) (addr : Addr)
    (id' : LobbyId) :
    lrank (getLobbyState m id').lstate ≤
      lrank (getLobbyState (addPlayer m id sid addr) id').lstate := by
  simp only [addPlayer]
  rw [getLobbyState_set]
  by_cases h : id = id'
  · subst h; rw [if_pos rfl]
  · rw [if_neg h]; exact le_refl _

theorem lrank_mono_markTemporarilyDisconnected (m : Manager) (sid : SocketId) (id' : LobbyId) :
    lrank (getLobbyState m id').lstate ≤
      lrank (getLobbyState (markTemporarilyDisconnected m sid) id').lstate := by
  unfold markTemporarilyDisconnected
  cases hL : aget m.playerLobbies sid with
  | none => exact le_refl _
  | some id =>
    simp only []
    rw [getLobbyState_set]
    by_cases h : id = id'
    · subst h; rw [if_pos rfl]
      split
      · split
        · exact le_refl _
        · exact le_refl _
      · exact le_refl _
    · rw [if_neg h]; exact le_refl _

theorem lrank_mono_removeCore (m : Manager) (id : LobbyId) (sid : SocketId) (id' : LobbyId) :
    lrank (getLobbyState m id').lstate ≤
      lrank (getLobbyState (removeCore m id sid) id').lstate := by
  simp only [removeCore]
  rw [getLobbyState_set]
  by_cases h : id = id'
  · subst h; rw [if_pos rfl]
    split
    · exact le_refl _
    · split_ifs with h1
      · exact le_refl _
      · exact le_refl _
  · rw [if_neg h]; exact le_refl _

theorem lrank_mono_removePlayerBySocket (m : Manager) (sid : SocketId) (id' : LobbyId) :
    lrank (getLobbyState m id').lstate ≤
      lrank (getLobbyState (removePlayerBySocket m sid) id').lstate := by
  unfold removePlayerBySocket
  cases hL : aget m.playerLobbies sid with
  | none => exact le_refl _
  | some id => exact lrank_mono_removeCore m id sid id'

theorem lrank_mono_removePlayerPermanently (m : Manager) (addr : Addr) (lid : LobbyId)
    (id' : LobbyId) :
    lrank (getLobbyState m id').lstate ≤
      lrank (getLobbyState (removePlayerPermanently m addr lid) id').lstate := by
  unfold removePlayerPermanently
  cases hL : aget m.addressLobbies addr with
  | none => exact le_refl _
  | some id =>
    simp only []
    cases hs : findSocketByAddress (getLobbyState m id).players addr with
    | none => exact le_refl _
    | some sid => exact lrank_mono_removeCore m id sid id'

theorem lrank_mono_handleReconnection (m : Manager) (sid : SocketId) (addr : Addr)
    (id : LobbyId) (id' : LobbyId) :
    lrank (getLobbyState m id').lstate ≤
      lrank (getLobbyState (handleReconnection m sid addr id).2 id').lstate := by
  simp only [handleReconnection]
  cases hf : List.find? (fun e =>
      decide (e.2.address = addr ∧ e.2.pstatus = PStatus.temporarily_disconnected))
      (getLobbyState m id).players with
  | none =>
    simp only [hf]
    rw [getLobbyState_set]
    by_cases h : id = id'
    · subst h; rw [if_pos rfl]
    · rw [if_neg h]; exact le_refl _
  | some entry =>
    simp only [hf]
    rw [getLobbyState_set]
    by_cases h : id = id'
    · subst h; rw [if_pos rfl]
    · rw [if_neg h]; exact le_refl _

theorem lrank_mono_handleKill (m : Manager) (ksid vsid : SocketId) (id' : LobbyId) :
    lrank (getLobbyState m id').lstate ≤
      lrank (getLobbyState (handleKill m ksid vsid) id').lstate := by
  simp only [handleKill]
  split
  · split
    · split
      · split
        · rw [getLobbyState_set]
          split_ifs with h
          · subst h; exact le_refl _
          · exact le_refl _
        · rw [getLobbyState_set]
          split_ifs with h
          · subst h; exact le_refl _
          · exact le_refl _
      · rw [getLobbyState_set]
        split_ifs with h
        · subst h; exact le_refl _
        · exact le_refl _
    · exact le_refl _
  · exact le_refl _

theorem lrank_mono_handleCashOut (m : Manager) (sid : SocketId) (now : Nat) (id' : LobbyId) :
    lrank (getLobbyState m id').lstate ≤
      lrank (getLobbyState (handleCashOut m sid now).2 id').lstate := by
  simp only [handleCashOut]
  cases hL : aget m.playerLobbies sid with
  | none => simp only [hL]; exact le_refl _
  | some id =>
    simp only [hL]
    split
    · simp only []
      rw [getLobbyState_set]
      by_cases h : id = id'
      · subst h; rw [if_pos rfl]
      · rw [if_neg h]; exact le_refl _
    · split
      · simp only []
        rw [getLobbyState_set]
        by_cases h : id = id'
        · subst h; rw [if_pos rfl]
        · rw [if_neg h]; exact le_refl _
      · split
        · simp only []
          rw [getLobbyState_set]
          by_cases h : id = id'
          · subst h; rw [if_pos rfl]
          · rw [if_neg h]; exact le_refl _
        · split
          · simp only []
            rw [getLobbyState_set]
            by_cases h : id = id'
            · subst h; rw [if_pos rfl]
            · rw [if_neg h]; exact le_refl _
          · simp only []
            rw [getLobbyState_set]
            by_cases h : id = id'
            · subst h; rw [if_pos rfl]
            · rw [if_neg h]; exact le_refl _

theorem lrank_mono_markFinalizable (m : Manager) (id : LobbyId) (id' : LobbyId) :
    lrank (getLobbyState m id').lstate ≤
      lrank (getLobbyState (markFinalizable m id) id').lstate := by
  simp only [markFinalizable]
  rw [getLobbyState_set]
  by_cases h : id = id'
  · subst h; rw [if_pos rfl]
    by_cases hw : (getLobbyState m id).lstate = LState.active
    · rw [if_pos hw, hw]
      show (1 : Nat) ≤ 2
      norm_num
    · rw [if_neg hw]
  · rw [if_neg h]; exact le_refl _

theorem lrank_mono_markFinalized (m : Manager) (id : LobbyId) (id' : LobbyId) :
    lrank (getLobbyState m id').lstate ≤
      lrank (getLobbyState (markFinalized m id) id').lstate := by
  simp only [markFinalized]
  rw [getLobbyState_set]
  by_cases h : id = id'
  · subst h; rw [if_pos rfl]
    exact lrank_le_three _
  · rw [if_neg h]; exact le_refl _

/-- One operation can only move any lobby's state forward. -/
theorem lrank_mono_applyOp (m : Manager) (op : GameOp) (id' : LobbyId) :
    lrank (getLobbyState m id').lstate ≤
      lrank (getLobbyState (applyOp m op) id').lstate := by
  cases op with
  | create id => exact lrank_mono_ensureLobby m id id'
  | activate id now => exact lrank_mono_activateLobby m id now id'
  | deposit id sid addr now =>
    simp only [applyOp]
    have h1 := lrank_mono_ensureLobby m id id'
    have h2 := lrank_mono_activateLobby (ensureLobby m id) id now id'
    have h3 := lrank_mono_handleReconnection (activateLobby (ensureLobby m id) id now)
      sid addr id id'
    split
    · next m2 heq =>
      rw [heq] at h3
      exact le_trans (le_trans h1 h2) h3
    · next m2 heq =>
      rw [heq] at h3
      exact le_trans (le_trans h1 h2)
        (le_trans h3 (lrank_mono_addPlayer m2 id sid addr id'))
  | kill ksid vsid => exact lrank_mono_handleKill m ksid vsid id'
  | disconnect sid => exact lrank_mono_markTemporarilyDisconnected m sid id'
  | cashOut sid now => exact lrank_mono_handleCashOut m sid now id'
  | removeByAddr addr lid => exact lrank_mono_removePlayerPermanently m addr lid id'
  | removeBySocket sid => exact lrank_mono_removePlayerBySocket m sid id'
  | finalizableMark id => exact lrank_mono_markFinalizable m id id'
  | finalizedMark id => exact lrank_mono_markFinalized m id id'

/-- C9: for every lobby and every sequence of operations (lobby creation,
activation, deposits, game events, `markFinalizable`, `markFinalized`),
a lobby's state only moves forward along
`Waiting → Active → Finalizable → Finalized`; it never returns to an
earlier state. -/
theorem c9_state_only_advances (m : Manager) (ops : List GameOp) (id : LobbyId) :
    lrank (getLobbyState m id).lstate ≤ lrank (getLobbyState (runFrom m ops) id).lstate := by
  induction ops generalizing m with
  | nil => exact le_refl _
  | cons op rest ih =>
    exact le_trans (lrank_mono_applyOp m op id) (ih (applyOp m op))

/-! ## C2: conservation over operation sequences

The finalization's `totalDeposits` is `balances.size * depositAmount`, so
the heart of the conservation claim is how the set of balance-ledger rows
evolves: only a deposit of a fresh address adds a row, and no operation
ever removes one. -/

theorem mem_of_aget {k v : Type} [DecidableEq k] {m : List (k × v)} {key : k} {val : v}
    (h : aget m key = some val) : (key, val) ∈ m := by
  induction m with
  | nil => simp [aget] at h
  | cons e t ih =>
    by_cases h1 : e.1 = key
    · simp [aget, h1] at h
      subst h1
      simp [← h]
    · simp [aget, h1] at h
      exact List.mem_cons_of_mem _ (ih h)

/-- Updating an existing key through any value transformation keeps the
key list unchanged. -/
theorem akeys_updateEntry {k v : Type} [DecidableEq k] (bs : List (k × v)) (a : k)
    (f : v → v) : akeys (updateEntry bs a f) = akeys bs := by
  unfold updateEntry
  cases hb : aget bs a with
  | some b =>
    exact akeys_aset_of_mem _ _ _ ((aget_isSome_iff_mem_akeys _ _).mp (by rw [hb]; rfl))
  | none => rfl

theorem balKeys_ensureLobby (m : Manager) (id id' : LobbyId) :
    balKeys (ensureLobby m id) id' = balKeys m id' := by
  simp only [ensureLobby, balKeys]
  rw [getLobbyState_set]
  split_ifs with h
  · subst h; rfl
  · rfl

theorem balKeys_activateLobby (m : Manager) (id : LobbyId) (now : Nat) (id' : LobbyId) :
    balKeys (activateLobby m id now) id' = balKeys m id' := by
  simp only [activateLobby, balKeys]
  rw [getLobbyState_set]
  split_ifs with h hw
  · subst h; rfl
  · subst h; rfl
  · rfl

theorem balKeys_markTemporarilyDisconnected (m : Manager) (sid : SocketId) (id' : LobbyId) :
    balKeys (markTemporarilyDisconnected m sid) id' = balKeys m id' := by
  simp only [markTemporarilyDisconnected, balKeys]
  cases hL : aget m.playerLobbies sid with
  | none => rfl
  | some id =>
    simp only []
    rw [getLobbyState_set]
    split_ifs with h
    · subst h
      split
      · split_ifs <;> rfl
      · rfl
    · rfl

theorem balKeys_removeCore (m : Manager) (id : LobbyId) (sid : SocketId) (id' : LobbyId) :
    balKeys (removeCore m id sid) id' = balKeys m id' := by
  simp only [removeCore, balKeys]
  rw [getLobbyState_set]
  split_ifs with h
  · subst h
    split
    · rfl
    · split_ifs with hst
      · exact akeys_updateEntry _ _ _
      · rfl
  · rfl

theorem balKeys_removePlayerBySocket (m : Manager) (sid : SocketId) (id' : LobbyId) :
    balKeys (removePlayerBySocket m sid) id' = balKeys m id' := by
  unfold removePlayerBySocket
  cases hL : aget m.playerLobbies sid with
  | none => rfl
  | some id => exact balKeys_removeCore m id sid id'

theorem balKeys_removePlayerPermanently (m : Manager) (addr : Addr) (lid : LobbyId)
    (id' : LobbyId) :
    balKeys (removePlayerPermanently m addr lid) id' = balKeys m id' := by
  unfold removePlayerPermanently
  cases hL : aget m.addressLobbies addr with
  | none => rfl
  | some id =>
    simp only []
    cases hs : findSocketByAddress (getLobbyState m id).players addr with
    | none => rfl
    | some sid => exact balKeys_removeCore m id sid id'

theorem balKeys_markFinalizable (m : Manager) (id : LobbyId) (id' : LobbyId) :
    balKeys (markFinalizable m id) id' = balKeys m id' := by
  simp only [markFinalizable, balKeys]
  rw [getLobbyState_set]
  split_ifs with h hw
  · subst h; rfl
  · subst h; rfl
  · rfl

theorem balKeys_markFinalized (m : Manager) (id : LobbyId) (id' : LobbyId) :
    balKeys (markFinalized m id) id' = balKeys m id' := by
  simp only [markFinalized, balKeys]
  rw [getLobbyState_set]
  split_ifs with h
  · subst h; rfl
  · rfl

theorem balKeys_despawnLobbyPlayers (m : Manager) (id : LobbyId) (id' : LobbyId) :
    balKeys (despawnLobbyPlayers m id) id' = balKeys m id' := by
  unfold despawnLobbyPlayers
  generalize akeys (getLobbyState m id).players = sids
  induction sids generalizing m with
  | nil => rfl
  | cons sid rest ih =>
    simp only [List.foldl_cons]
    rw [ih (removePlayerBySocket m sid), balKeys_removePlayerBySocket]

theorem balKeys_handleReconnection (m : Manager) (sid : SocketId) (addr : Addr)
    (id : LobbyId) (id' : LobbyId) :
    balKeys (handleReconnection m sid addr id).2 id' = balKeys m id' := by
  simp only [handleReconnection, balKeys]
  cases hf : List.find? (fun e =>
      decide (e.2.address = addr ∧ e.2.pstatus = PStatus.temporarily_disconnected))
      (getLobbyState m id).players with
  | none =>
    simp only [hf]
    rw [getLobbyState_set]
    split_ifs with h
    · subst h; rfl
    · rfl
  | some entry =>
    simp only [hf]
    rw [getLobbyState_set]
    split_ifs with h
    · subst h
      exact akeys_updateEntry _ _ _
    · rfl

theorem balKeys_handleKill (m : Manager) (ksid vsid : SocketId) (id' : LobbyId) :
    balKeys (handleKill m ksid vsid) id' = balKeys m id' := by
  simp only [handleKill, balKeys]
  split
  · split_ifs with hkv
    · split
      · split_ifs with hst
        · rw [getLobbyState_set]
          split_ifs with h
          · subst h
            exact (akeys_updateEntry _ _ _).trans (akeys_updateEntry _ _ _)
          · rfl
        · rw [getLobbyState_set]
          split_ifs with h
          · subst h; rfl
          · rfl
      · rw [getLobbyState_set]
        split_ifs with h
        · subst h; rfl
        · rfl
    · rfl
  · rfl

theorem balKeys_handleCashOut (m : Manager) (sid : SocketId) (now : Nat) (id' : LobbyId) :
    balKeys (handleCashOut m sid now).2 id' = balKeys m id' := by
  simp only [handleCashOut, balKeys]
  cases hL : aget m.playerLobbies sid with
  | none => simp only [hL]
  | some id =>
    simp only [hL]
    split
    · rw [getLobbyState_set]
      split_ifs with h
      · subst h; rfl
      · rfl
    · split_ifs with h1 h2 h3
      all_goals rw [getLobbyState_set]
      all_goals split_ifs with h
      · subst h; rfl
      · rfl
      · subst h; rfl
      · rfl
      · subst h; rfl
      · rfl
      · subst h
        exact akeys_updateEntry _ _ _
      · rfl

/-- The ledger-keys effect of `addPlayer`: unchanged when the address is
already present, appended otherwise; other lobbies untouched. -/
theorem balKeys_addPlayer (m : Manager) (id : LobbyId) (sid : SocketId) (addr : Addr)
    (id' : LobbyId) :
    balKeys (addPlayer m id sid addr) id' =
      if id = id' then
        (if addr ∈ balKeys m id then balKeys m id else balKeys m id ++ [addr])
      else balKeys m id' := by
  simp only [addPlayer, balKeys]
  rw [getLobbyState_set]
  split_ifs with h hmem
  · subst h
    cases hb : aget (getLobbyState m id).balances addr with
    | some w => simp only [insertIfAbsent, hb]
    | none =>
      exfalso
      have := (aget_isSome_iff_mem_akeys (getLobbyState m id).balances addr).mpr hmem
      rw [hb] at this
      simp at this
  · subst h
    cases hb : aget (getLobbyState m id).balances addr with
    | some w =>
      exfalso
      exact hmem ((aget_isSome_iff_mem_akeys _ _).mp (by rw [hb]; rfl))
    | none =>
      simp only [insertIfAbsent, hb]
      exact akeys_aset_of_not_mem _ _ _ hmem
  · rfl

theorem mem_of_mem_updateEntry {k v : Type} [DecidableEq k] {m : List (k × v)} {key : k}
    {f : v → v} {e : k × v} (h : e ∈ updateEntry m key f) :
    e ∈ m ∨ ∃ w, aget m key = some w ∧ e = (key, f w) := by
  unfold updateEntry at h
  cases hb : aget m key with
  | none => rw [hb] at h; exact Or.inl h
  | some w =>
    rw [hb] at h
    rcases mem_of_mem_aset h with h1 | h1
    · exact Or.inr ⟨w, rfl, h1⟩
    · exact Or.inl h1

theorem self_mem_akeys_insertIfAbsent {k v : Type} [DecidableEq k] (m : List (k × v))
    (key : k) (val : v) : key ∈ akeys (insertIfAbsent m key val) := by
  unfold insertIfAbsent
  cases hb : aget m key with
  | some w => exact (aget_isSome_iff_mem_akeys _ _).mp (by rw [hb]; rfl)
  | none =>
    by_cases hmem : key ∈ akeys m
    · exfalso
      have := (aget_isSome_iff_mem_akeys m key).mpr hmem
      rw [hb] at this
      simp at this
    · rw [akeys_aset_of_not_mem _ _ _ hmem]
      simp

theorem mem_akeys_insertIfAbsent_of_mem {k v : Type} [DecidableEq k] {m : List (k × v)}
    {key key' : k} {val : v} (h : key' ∈ akeys m) :
    key' ∈ akeys (insertIfAbsent m key val) := by
  unfold insertIfAbsent
  cases hb : aget m key with
  | some w => exact h
  | none =>
    by_cases hmem : key ∈ akeys m
    · exact (akeys_aset_of_mem m key val hmem) ▸ h
    · rw [akeys_aset_of_not_mem _ _ _ hmem]
      exact List.mem_append_left _ h

theorem covered_ensureLobby (m : Manager) (id : LobbyId) (h : PlayersCovered m) :
    PlayersCovered (ensureLobby m id) := by
  intro id'
  simp only [ensureLobby]
  rw [getLobbyState_set]
  split_ifs with hh
  · exact h id
  · exact h id'

theorem covered_activateLobby (m : Manager) (id : LobbyId) (now : Nat)
    (h : PlayersCovered m) : PlayersCovered (activateLobby m id now) := by
  intro id'
  simp only [activateLobby]
  rw [getLobbyState_set]
  split_ifs with hh hw
  · intro e he
    exact h id e he
  · exact h id
  · exact h id'

theorem covered_addPlayer (m : Manager) (id : LobbyId) (sid : SocketId) (addr : Addr)
    (h : PlayersCovered m) : PlayersCovered (addPlayer m id sid addr) := by
  intro id'
  simp only [addPlayer]
  rw [getLobbyState_set]
  split_ifs with hh
  · intro e he
    rcases mem_of_mem_aset he with rfl | he'
    · exact self_mem_akeys_insertIfAbsent _ _ _
    · exact mem_akeys_insertIfAbsent_of_mem (h id e he')
  · exact h id'

theorem covered_markTemporarilyDisconnected (m : Manager) (sid : SocketId)
    (h : PlayersCovered m) : PlayersCovered (markTemporarilyDisconnected m sid) := by
  intro id'
  simp only [markTemporarilyDisconnected]
  cases hL : aget m.playerLobbies sid with
  | none => exact h id'
  | some id =>
    simp only []
    rw [getLobbyState_set]
    split_ifs with hh
    · split
      · next p hp =>
        split_ifs with hst
        · intro e he
          rcases mem_of_mem_aset he with rfl | he'
          · exact h id (sid, p) (mem_of_aget hp)
          · exact h id e he'
        · exact h id
      · exact h id
    · exact h id'

theorem covered_removeCore (m : Manager) (id : LobbyId) (sid : SocketId)
    (h : PlayersCovered m) : PlayersCovered (removeCore m id sid) := by
  intro id'
  simp only [removeCore]
  rw [getLobbyState_set]
  split_ifs with hh
  · split
    · exact h id
    · next p hp =>
      split_ifs with hst
      · intro e he
        simp only [akeys_updateEntry]
        exact h id e (mem_of_mem_adel he)
      · intro e he
        exact h id e (mem_of_mem_adel he)
  · exact h id'

theorem covered_removePlayerBySocket (m : Manager) (sid : SocketId)
    (h : PlayersCovered m) : PlayersCovered (removePlayerBySocket m sid) := by
  unfold removePlayerBySocket
  cases hL : aget m.playerLobbies sid with
  | none => exact h
  | some id => exact covered_removeCore m id sid h

theorem covered_removePlayerPermanently (m : Manager) (addr : Addr) (lid : LobbyId)
    (h : PlayersCovered m) : PlayersCovered (removePlayerPermanently m addr lid) := by
  unfold removePlayerPermanently
  cases hL : aget m.addressLobbies addr with
  | none => exact h
  | some id =>
    simp only []
    cases hs : findSocketByAddress (getLobbyState m id).players addr with
    | none => exact h
    | some sid => exact covered_removeCore m id sid h

theorem covered_handleReconnection (m : Manager) (sid : SocketId) (addr : Addr)
    (id : LobbyId) (h : PlayersCovered m) :
    PlayersCovered (handleReconnection m sid addr id).2 := by
  intro id'
  simp only [handleReconnection]
  cases hf : List.find? (fun e =>
      decide (e.2.address = addr ∧ e.2.pstatus = PStatus.temporarily_disconnected))
      (getLobbyState m id).players with
  | none =>
    simp only [hf]
    rw [getLobbyState_set]
    split_ifs with hh
    · exact h id
    · exact h id'
  | some entry =>
    simp only [hf]
    rw [getLobbyState_set]
    split_ifs with hh
    · intro e he
      simp only [akeys_updateEntry]
      rcases mem_of_mem_aset he with rfl | he'
      · exact h id entry (List.mem_of_find?_eq_some hf)
      · exact h id e (mem_of_mem_adel he')
    · exact h id'

theorem covered_handleKill (m : Manager) (ksid vsid : SocketId)
    (h : PlayersCovered m) : PlayersCovered (handleKill m ksid vsid) := by
  intro id'
  simp only [handleKill]
  split
  · next kid vid hk hv =>
    split_ifs with hkv
    · split
      · next killer victim hkp hvp =>
        split_ifs with hst
        · rw [getLobbyState_set]
          split_ifs with hh
          · intro e he
            simp only [akeys_updateEntry]
            rcases mem_of_mem_updateEntry he with he1 | ⟨w, hw, rfl⟩
            · rcases mem_of_mem_aset he1 with rfl | he2
              · exact h kid (ksid, killer) (mem_of_aget hkp)
              · exact h kid e he2
            · rcases mem_of_mem_aset (mem_of_aget hw) with heq | hw2
              · have hw3 : w = { killer with balance := killer.balance + victim.balance } :=
                  congrArg Prod.snd heq
                rw [hw3]
                exact h kid (ksid, killer) (mem_of_aget hkp)
              · exact h kid (vsid, w) hw2
          · exact h id'
        · rw [getLobbyState_set]
          split_ifs with hh
          · exact h kid
          · exact h id'
      · rw [getLobbyState_set]
        split_ifs with hh
        · exact h kid
        · exact h id'
    · exact h id'
  · exact h id'

theorem covered_handleCashOut (m : Manager) (sid : SocketId) (now : Nat)
    (h : PlayersCovered m) : PlayersCovered (handleCashOut m sid now).2 := by
  intro id'
  simp only [handleCashOut]
  cases hL : aget m.playerLobbies sid with
  | none => simp only [hL]; exact h id'
  | some id =>
    simp only [hL]
    split
    · rw [getLobbyState_set]
      split_ifs with hh
      · exact h id
      · exact h id'
    · next p hp =>
      split_ifs with h1 h2 h3
      all_goals rw [getLobbyState_set]
      all_goals split_ifs with hh
      · exact h id
      · exact h id'
      · exact h id
      · exact h id'
      · exact h id
      · exact h id'
      · intro e he
        simp only [akeys_updateEntry]
        rcases mem_of_mem_aset he with rfl | he'
        · exact h id (sid, p) (mem_of_aget hp)
        · exact h id e he'
      · exact h id'

theorem covered_markFinalizable (m : Manager) (id : LobbyId)
    (h : PlayersCovered m) : PlayersCovered (markFinalizable m id) := by
  intro id'
  simp only [markFinalizable]
  rw [getLobbyState_set]
  split_ifs with hh hw
  · exact h id
  · exact h id
  · exact h id'

theorem covered_markFinalized (m : Manager) (id : LobbyId)
    (h : PlayersCovered m) : PlayersCovered (markFinalized m id) := by
  intro id'
  simp only [markFinalized]
  rw [getLobbyState_set]
  split_ifs with hh
  · intro e he
    exact h id e he
  · exact h id'

/-- Every operation preserves the players-have-balance-rows invariant. -/
theorem covered_applyOp (m : Manager) (op : GameOp) (h : PlayersCovered m) :
    PlayersCovered (applyOp m op) := by
  cases op with
  | create id => exact covered_ensureLobby m id h
  | activate id now => exact covered_activateLobby m id now h
  | deposit id sid addr now =>
    simp only [applyOp]
    have h1 := covered_activateLobby (ensureLobby m id) id now (covered_ensureLobby m id h)
    have h2 := covered_handleReconnection (activateLobby (ensureLobby m id) id now)
      sid addr id h1
    split
    · next m2 heq => rw [heq] at h2; exact h2
    · next m2 heq =>
      rw [heq] at h2
      exact covered_addPlayer m2 id sid addr h2
  | kill ksid vsid => exact covered_handleKill m ksid vsid h
  | disconnect sid => exact covered_markTemporarilyDisconnected m sid h
  | cashOut sid now => exact covered_handleCashOut m sid now h
  | removeByAddr addr lid => exact covered_removePlayerPermanently m addr lid h
  | removeBySocket sid => exact covered_removePlayerBySocket m sid h
  | finalizableMark id => exact covered_markFinalizable m id h
  | finalizedMark id => exact covered_markFinalized m id h

theorem nodup_append_singleton {α : Type} (l : List α) (a : α) (h1 : l.Nodup)
    (h2 : a ∉ l) : (l ++ [a]).Nodup := by
  simp [List.nodup_append, h1, h2]

/-- Every operation keeps balance-ledger keys duplicate-free. -/
theorem balNodup_applyOp (m : Manager) (op : GameOp) (h : BalNodup m) :
    BalNodup (applyOp m op) := by
  cases op with
  | create id =>
    intro id'
    show (balKeys (ensureLobby m id) id').Nodup
    rw [balKeys_ensureLobby]
    exact h id'
  | activate id now =>
    intro id'
    show (balKeys (activateLobby m id now) id').Nodup
    rw [balKeys_activateLobby]
    exact h id'
  | deposit id sid addr now =>
    simp only [applyOp]
    have hk1 : ∀ j, balKeys (activateLobby (ensureLobby m id) id now) j = balKeys m j :=
      fun j => (balKeys_activateLobby _ _ _ _).trans (balKeys_ensureLobby _ _ _)
    split
    · next m2 heq =>
      intro id'
      show (balKeys m2 id').Nodup
      have hk2 := balKeys_handleReconnection (activateLobby (ensureLobby m id) id now)
        sid addr id id'
      rw [heq] at hk2
      rw [hk2, hk1]
      exact h id'
    · next m2 heq =>
      have hk2 : ∀ j, balKeys m2 j = balKeys m j := by
        intro j
        have hk3 := balKeys_handleReconnection (activateLobby (ensureLobby m id) id now)
          sid addr id j
        rw [heq] at hk3
        exact hk3.trans (hk1 j)
      intro id'
      show (balKeys (addPlayer m2 id sid addr) id').Nodup
      rw [balKeys_addPlayer]
      split_ifs with hid hmem
      · rw [hk2]; exact h id
      · rw [hk2] at hmem ⊢
        exact nodup_append_singleton _ _ (h id) hmem
      · rw [hk2]; exact h id'
  | kill ksid vsid =>
    intro id'
    show (balKeys (handleKill m ksid vsid) id').Nodup
    rw [balKeys_handleKill]
    exact h id'
  | disconnect sid =>
    intro id'
    show (balKeys (markTemporarilyDisconnected m sid) id').Nodup
    rw [balKeys_markTemporarilyDisconnected]
    exact h id'
  | cashOut sid now =>
    intro id'
    show (balKeys (handleCashOut m sid now).2 id').Nodup
    rw [balKeys_handleCashOut]
    exact h id'
  | removeByAddr addr lid =>
    intro id'
    show (balKeys (removePlayerPermanently m addr lid) id').Nodup
    rw [balKeys_removePlayerPermanently]
    exact h id'
  | removeBySocket sid =>
    intro id'
    show (balKeys (removePlayerBySocket m sid) id').Nodup
    rw [balKeys_removePlayerBySocket]
    exact h id'
  | finalizableMark id =>
    intro id'
    show (balKeys (markFinalizable m id) id').Nodup
    rw [balKeys_markFinalizable]
    exact h id'
  | finalizedMark id =>
    intro id'
    show (balKeys (markFinalized m id) id').Nodup
    rw [balKeys_markFinalized]
    exact h id'

/-- The ledger-address set after one operation: only a deposit for the
lobby can add its address. -/
theorem keysFinset_applyOp (m : Manager) (op : GameOp) (hcov : PlayersCovered m)
    (id' : LobbyId) :
    keysFinset (applyOp m op) id' = keysFinset m id' ∪ opDepositKeys op id' := by
  cases op with
  | create id =>
    show (balKeys (ensureLobby m id) id').toFinset = _
    rw [balKeys_ensureLobby]
    simp [opDepositKeys, keysFinset]
  | activate id now =>
    show (balKeys (activateLobby m id now) id').toFinset = _
    rw [balKeys_activateLobby]
    simp [opDepositKeys, keysFinset]
  | deposit id sid addr now =>
    simp only [applyOp]
    have hk1 : ∀ j, balKeys (activateLobby (ensureLobby m id) id now) j = balKeys m j :=
      fun j => (balKeys_activateLobby _ _ _ _).trans (balKeys_ensureLobby _ _ _)
    have hcov1 : PlayersCovered (activateLobby (ensureLobby m id) id now) :=
      covered_activateLobby _ _ _ (covered_ensureLobby _ _ hcov)
    split
    · next m2 heq =>
      have hk2 : ∀ j, balKeys m2 j = balKeys m j := by
        intro j
        have hk3 := balKeys_handleReconnection (activateLobby (ensureLobby m id) id now)
          sid addr id j
        rw [heq] at hk3
        exact hk3.trans (hk1 j)
      have haddr : addr ∈ balKeys m id := by
        revert heq
        simp only [handleReconnection]
        cases hf : List.find? (fun e =>
            decide (e.2.address = addr ∧ e.2.pstatus = PStatus.temporarily_disconnected))
            (getLobbyState (activateLobby (ensureLobby m id) id now) id).players with
        | none =>
          intro heq
          exact Bool.noConfusion (congrArg Prod.fst heq)
        | some entry =>
          intro heq
          have hmem := List.mem_of_find?_eq_some hf
          have hpred := List.find?_some hf
          simp only [decide_eq_true_eq] at hpred
          have hin := hcov1 id entry hmem
          rw [hpred.1] at hin
          exact (hk1 id) ▸ hin
      show (balKeys m2 id').toFinset = _
      rw [hk2]
      simp only [opDepositKeys, keysFinset]
      split_ifs with hid
      · subst hid
        exact (Finset.union_eq_left.mpr
          (Finset.singleton_subset_iff.mpr (List.mem_toFinset.mpr haddr))).symm
      · simp
    · next m2 heq =>
      have hk2 : ∀ j, balKeys m2 j = balKeys m j := by
        intro j
        have hk3 := balKeys_handleReconnection (activateLobby (ensureLobby m id) id now)
          sid addr id j
        rw [heq] at hk3
        exact hk3.trans (hk1 j)
      show (balKeys (addPlayer m2 id sid addr) id').toFinset = _
      rw [balKeys_addPlayer]
      simp only [opDepositKeys, keysFinset]
      split_ifs with hid hmem
      · subst hid
        rw [hk2]
        rw [hk2] at hmem
        exact (Finset.union_eq_left.mpr
          (Finset.singleton_subset_iff.mpr (List.mem_toFinset.mpr hmem))).symm
      · subst hid
        rw [hk2]
        rw [List.toFinset_append]
        simp
      · rw [hk2]
        simp
  | kill ksid vsid =>
    show (balKeys (handleKill m ksid vsid) id').toFinset = _
    rw [balKeys_handleKill]
    simp [opDepositKeys, keysFinset]
  | disconnect sid =>
    show (balKeys (markTemporarilyDisconnected m sid) id').toFinset = _
    rw [balKeys_markTemporarilyDisconnected]
    simp [opDepositKeys, keysFinset]
  | cashOut sid now =>
    show (balKeys (handleCashOut m sid now).2 id').toFinset = _
    rw [balKeys_handleCashOut]
    simp [opDepositKeys, keysFinset]
  | removeByAddr addr lid =>
    show (balKeys (removePlayerPermanently m addr lid) id').toFinset = _
    rw [balKeys_removePlayerPermanently]
    simp [opDepositKeys, keysFinset]
  | removeBySocket sid =>
    show (balKeys (removePlayerBySocket m sid) id').toFinset = _
    rw [balKeys_removePlayerBySocket]
    simp [opDepositKeys, keysFinset]
  | finalizableMark id =>
    show (balKeys (markFinalizable m id) id').toFinset = _
    rw [balKeys_markFinalizable]
    simp [opDepositKeys, keysFinset]
  | finalizedMark id =>
    show (balKeys (markFinalized m id) id').toFinset = _
    rw [balKeys_markFinalized]
    simp [opDepositKeys, keysFinset]

/-- Running any operation sequence: the invariants persist, and the
ledger-address set of each lobby grows by exactly the deposited
addresses. -/
theorem c2_run_invariants (ops : List GameOp) : ∀ m : Manager,
    BalNodup m → PlayersCovered m →
    (BalNodup (runFrom m ops) ∧ PlayersCovered (runFrom m ops)) ∧
    ∀ id', keysFinset (runFrom m ops) id' =
      keysFinset m id' ∪ (depositAddrsTo ops id').toFinset := by
  induction ops with
  | nil =>
    intro m h1 h2
    exact ⟨⟨h1, h2⟩, fun id' => by simp [runFrom, depositAddrsTo]⟩
  | cons op rest ih =>
    intro m h1 h2
    obtain ⟨hgood, hk⟩ := ih (applyOp m op) (balNodup_applyOp m op h1) (covered_applyOp m op h2)
    refine ⟨hgood, fun id' => ?_⟩
    have hstep := keysFinset_applyOp m op h2 id'
    show keysFinset (runFrom (applyOp m op) rest) id' = _
    rw [hk id', hstep, Finset.union_assoc]
    congr 1
    cases op with
    | deposit id sid addr now =>
      simp only [opDepositKeys, depositAddrsTo, List.filterMap_cons]
      split_ifs with hid
      · simp [Finset.insert_eq]
      · simp
    | create id => simp [opDepositKeys, depositAddrsTo, List.filterMap_cons]
    | activate id now => simp [opDepositKeys, depositAddrsTo, List.filterMap_cons]
    | kill ksid vsid => simp [opDepositKeys, depositAddrsTo, List.filterMap_cons]
    | disconnect sid => simp [opDepositKeys, depositAddrsTo, List.filterMap_cons]
    | cashOut sid now => simp [opDepositKeys, depositAddrsTo, List.filterMap_cons]
    | removeByAddr addr lid => simp [opDepositKeys, depositAddrsTo, List.filterMap_cons]
    | removeBySocket sid => simp [opDepositKeys, depositAddrsTo, List.filterMap_cons]
    | finalizableMark id => simp [opDepositKeys, depositAddrsTo, List.filterMap_cons]
    | finalizedMark id => simp [opDepositKeys, depositAddrsTo, List.filterMap_cons]

/-- C2 (counterexample): after the address `"a"` deposits twice (two
confirmed deposits on sockets `"s1"`, `"s2"`), the finalization's
`totalPayout + totalFee` equals `1000000` (one ledger row times
`depositAmount`) — not the `2000000` of total confirmed deposits, so
conservation against the lobby's total confirmed deposits fails. -/
theorem c2_counterexample :
    ¬ (((finalizeSettlement
          (runOps [GameOp.deposit 0 "s1" "a" 0, GameOp.deposit 0 "s2" "a" 0]) 0).totalPayout
          : Int) +
        (finalizeSettlement
          (runOps [GameOp.deposit 0 "s1" "a" 0, GameOp.deposit 0 "s2" "a" 0]) 0).totalFee =
        (confirmedDeposits [GameOp.deposit 0 "s1" "a" 0, GameOp.deposit 0 "s2" "a" 0] 0
          : Int)) := by
  decide

/-- C2 (amended): for every sequence of operations (deposits, kills,
disconnects, reconnects, cash-outs, removals, lifecycle marks) run from a
fresh manager, the finalization computation satisfies
`totalPayout + totalFee == (number of distinct depositor addresses) ×
depositAmount` exactly. This equals the lobby's total confirmed deposits
precisely when no address deposits more than once; a repeated deposit is
not counted (see the counterexample). -/
theorem c2_conservation_distinct_depositors (ops : List GameOp) (L : LobbyId) :
    ((finalizeSettlement (runOps ops) L).totalPayout : Int) +
      (finalizeSettlement (runOps ops) L).totalFee =
      ((depositAddrsTo ops L).dedup.length * depositAmount : Int) := by
  have hinit1 : BalNodup Manager.init := fun id => List.nodup_nil
  have hinit2 : PlayersCovered Manager.init := by
    intro id e he
    exact absurd he (List.not_mem_nil e)
  obtain ⟨⟨hnd, hcov⟩, hkeys⟩ := c2_run_invariants ops Manager.init hinit1 hinit2
  have hkL := hkeys L
  rw [show keysFinset Manager.init L = ∅ from rfl, Finset.empty_union] at hkL
  have hbk : balKeys (markFinalizable (despawnLobbyPlayers (runOps ops) L) L) L =
      balKeys (runOps ops) L :=
    (balKeys_markFinalizable _ _ _).trans (balKeys_despawnLobbyPlayers _ _ _)
  have hlen : (balKeys (runOps ops) L).length = (depositAddrsTo ops L).dedup.length := by
    have h1 : (balKeys (runOps ops) L).toFinset.card = (balKeys (runOps ops) L).length :=
      List.toFinset_card_of_nodup (hnd L)
    have h2 : (depositAddrsTo ops L).toFinset.card = (depositAddrsTo ops L).dedup.length :=
      List.card_toFinset _
    rw [← h1, ← h2, show (balKeys (runOps ops) L).toFinset =
      keysFinset (runFrom Manager.init ops) L from rfl, hkL]
  have hD : lobbyTotalDeposits (markFinalizable (despawnLobbyPlayers (runOps ops) L) L) L =
      (depositAddrsTo ops L).dedup.length * depositAmount := by
    unfold lobbyTotalDeposits
    have hlb : (getLobbyState (markFinalizable (despawnLobbyPlayers (runOps ops) L) L)
        L).balances.length = (balKeys (runOps ops) L).length := by
      rw [← hbk]
      unfold balKeys akeys
      rw [List.length_map]
    rw [hlb, hlen]
  have hTF : (finalizeSettlement (runOps ops) L).totalFee =
      settleTotalFee
        (Manager.finalBalances (markFinalizable (despawnLobbyPlayers (runOps ops) L) L) L)
        (lobbyTotalDeposits (markFinalizable (despawnLobbyPlayers (runOps ops) L) L) L) := rfl
  have hTP : (finalizeSettlement (runOps ops) L).totalPayout =
      settleTotalPayout
        (Manager.finalBalances (markFinalizable (despawnLobbyPlayers (runOps ops) L) L) L) :=
    rfl
  rw [hTP, hTF]
  unfold settleTotalFee
  rw [hD]
  push_cast
  ring

end Bets
